import Mathlib

/-!
Shallow embedding of the ranking/battle engine of `src/backend/server.py`.

The document store (MongoDB accessed through `motor`) is modelled as an
in-memory state `DB` holding the `llm_models` catalog and the `votes`
ledger, both as lists in insertion order.  `update_one` updates the first
document matching the filter (`updateFirst`), `find_one` returns the first
match (`List.find?`), `insert_one` appends, `drop` empties the collection,
and `sort` is modelled by a stable insertion sort with the requested key
order.  Externally generated values (UUID ids, timestamps, the random
sample) are passed in as parameters; fields that no operation reads
(`created_at`, vote `id`, vote `timestamp`) are omitted from the record
types.  Python floats are modelled as exact rationals; `round(x, 1)`
(ties to even) is modelled by `pyRound1` over exact rationals.
-/

namespace LLMBattle

/-- Model of Python `round(x, 1)`: scale by 10, round half to even,
scale back.  Exact-rational idealisation of the float rounding used in
`calculate_win_rate`. -/
def pyRound1 (q : ℚ) : ℚ :=
  let t : ℚ := q * 10
  let f : ℤ := t.floor
  let frac : ℚ := t - (f : ℚ)
  let r : ℤ :=
    if frac < 1/2 then f
    else if 1/2 < frac then f + 1
    else if f % 2 = 0 then f else f + 1
  (r : ℚ) / 10

/-- Embedding of the pydantic `LLMModel` (src/backend/server.py, lines 79-96).
`id` is supplied by the caller (uuid4 in the source); `created_at` is
external clock data read by no operation and is omitted. -/
structure LLMModel where
  id : String
  name : String
  provider : String
  description : String
  capabilities : List String
  performance_score : ℚ := 0
  total_votes : ℕ := 0
  wins : ℕ := 0
  losses : ℕ := 0
  win_rate : ℚ := 0
  image_url : Option String := none
  deriving DecidableEq

/-- `LLMModel.calculate_win_rate` (lines 93-96): `0.0` when
`total_votes == 0`, else `round(wins / total_votes * 100, 1)`. -/
def LLMModel.calculate_win_rate (m : LLMModel) : ℚ :=
  if m.total_votes = 0 then 0
  else pyRound1 ((m.wins : ℚ) / (m.total_votes : ℚ) * 100)

/-- Embedding of the `Vote` ledger record (lines 99-104); `id` and
`timestamp` are externally generated and read by no operation. -/
structure Vote where
  winner_id : String
  loser_id : String
  voter_ip : Option String := none
  deriving DecidableEq

/-- Embedding of `Battle` (lines 107-109). -/
structure Battle where
  model1 : LLMModel
  model2 : LLMModel
  deriving DecidableEq

/-- The document store: the `llm_models` collection and the `votes`
ledger, in insertion order. -/
structure DB where
  llm_models : List LLMModel
  votes : List Vote
  deriving DecidableEq

/-- Model of `update_one(filter, update)`: apply `f` to the first element
matching `p`, leave everything else unchanged (a no-op when nothing
matches). -/
def updateFirst {α : Type} (p : α → Bool) (f : α → α) : List α → List α
  | [] => []
  | x :: xs => if p x then f x :: xs else x :: updateFirst p f xs

/-- The filter `{"id": i}` used by every model update in `submit_vote`. -/
def byId (i : String) (m : LLMModel) : Bool :=
  m.id == i

/-- Winner update `{"$inc": {"total_votes": 1, "wins": 1}}` (lines 365-371). -/
def incWin (m : LLMModel) : LLMModel :=
  { m with total_votes := m.total_votes + 1, wins := m.wins + 1 }

/-- Loser update `{"$inc": {"total_votes": 1, "losses": 1}}` (lines 374-380). -/
def incLoss (m : LLMModel) : LLMModel :=
  { m with total_votes := m.total_votes + 1, losses := m.losses + 1 }

/-- The `{"$set": {"win_rate": rate}}` update (lines 388-391). -/
def setWinRate (r : ℚ) (m : LLMModel) : LLMModel :=
  { m with win_rate := r }

/-- One iteration of the recalculation loop in `submit_vote`
(lines 383-391): `find_one({"id": model_id})`; if found, recompute the
win rate from that document and `$set` it; if not found, skip. -/
def recalcWinRate (ms : List LLMModel) (model_id : String) : List LLMModel :=
  match ms.find? (byId model_id) with
  | none => ms
  | some m => updateFirst (byId model_id) (setWinRate m.calculate_win_rate) ms

/-- Embedding of `submit_vote` (lines 353-395): append the vote record,
`$inc` the winner, `$inc` the loser, then recompute the win rate of the
winner id and of the loser id in that order.  The `Bool` component is the
`success` field of the returned body, which the handler sets to `True`
unconditionally. -/
def submit_vote (db : DB) (winner_id loser_id : String) : DB × Bool :=
  let votes1 := db.votes ++ [{ winner_id := winner_id, loser_id := loser_id }]
  let ms1 := updateFirst (byId winner_id) incWin db.llm_models
  let ms2 := updateFirst (byId loser_id) incLoss ms1
  let ms3 := recalcWinRate ms2 winner_id
  let ms4 := recalcWinRate ms3 loser_id
  ({ llm_models := ms4, votes := votes1 }, true)

/-- Static fields of one entry of the seed list in `seed_models`
(lines 243-308). -/
structure SeedSpec where
  name : String
  provider : String
  description : String
  capabilities : List String
  performance_score : ℚ
  image_url : String
  deriving DecidableEq

/-- The eight seed entries of `seed_models`, verbatim (lines 243-308). -/
def seedSpecs : List SeedSpec :=
  [ { name := "GPT-4", provider := "OpenAI",
      description := "OpenAI\x27s most advanced GPT model with superior reasoning capabilities",
      capabilities := ["Text Generation", "Code", "Math", "Analysis", "Creative Writing"],
      performance_score := 95,
      image_url := "https://images.unsplash.com/photo-1677442136019-21780ecad995?w=400" },
    { name := "Claude 4 Sonnet", provider := "Anthropic",
      description := "Anthropic\x27s flagship model balancing intelligence, speed, and cost",
      capabilities := ["Text Analysis", "Code", "Math", "Creative Tasks", "Safety"],
      performance_score := 94,
      image_url := "https://images.unsplash.com/photo-1655635949348-953b0e3c140a?w=400" },
    { name := "Gemini 2.5 Pro", provider := "Google",
      description := "Google\x27s most advanced multimodal AI with exceptional capabilities",
      capabilities := ["Multimodal", "Long Context", "Code", "Math", "Analysis"],
      performance_score := 93,
      image_url := "https://images.unsplash.com/photo-1639322537228-f710d846310a?w=400" },
    { name := "Claude 4 Haiku", provider := "Anthropic",
      description := "Fast and efficient model for quick responses",
      capabilities := ["Speed", "Text Generation", "Basic Analysis", "Code"],
      performance_score := 87,
      image_url := "https://images.unsplash.com/photo-1620712943543-bcc4688e7485?w=400" },
    { name := "Llama 3.3", provider := "Meta",
      description := "Open-source powerhouse with strong performance",
      capabilities := ["Open Source", "Text Generation", "Code", "Multilingual"],
      performance_score := 89,
      image_url := "https://images.unsplash.com/photo-1555949963-aa79dcee981c?w=400" },
    { name := "Mistral Large", provider := "Mistral AI",
      description := "European AI model with strong multilingual capabilities",
      capabilities := ["Multilingual", "Code", "Text Generation", "Analysis"],
      performance_score := 86,
      image_url := "https://images.unsplash.com/photo-1451187580459-43490279c0fa?w=400" },
    { name := "PaLM 2", provider := "Google",
      description := "Google\x27s language model with strong reasoning abilities",
      capabilities := ["Reasoning", "Code", "Math", "Multilingual"],
      performance_score := 85,
      image_url := "https://images.unsplash.com/photo-1518709268805-4e9042af2176?w=400" },
    { name := "GPT-3.5 Turbo", provider := "OpenAI",
      description := "Fast and cost-effective model for general tasks",
      capabilities := ["Speed", "Cost-effective", "Text Generation", "Code"],
      performance_score := 82,
      image_url := "https://images.unsplash.com/photo-1676277791608-ac54325e36e1?w=400" } ]

/-- Construction of one seeded `LLMModel`: all vote counters and the win
rate take their pydantic defaults (zero); `newId` stands for the uuid
assigned at creation. -/
def mkSeedModel (newId : String) (s : SeedSpec) : LLMModel :=
  { id := newId, name := s.name, provider := s.provider,
    description := s.description, capabilities := s.capabilities,
    performance_score := s.performance_score,
    image_url := some s.image_url }

/-- Embedding of `seed_models` (lines 240-321), success path: drop the
`llm_models` collection, insert the eight seed models.  `gen` supplies
the uuid of the k-th inserted model.  The `votes` collection is not
touched. -/
def seed_models (gen : ℕ → String) (db : DB) : DB :=
  { llm_models := seedSpecs.enum.map fun p => mkSeedModel (gen p.1) p.2,
    votes := db.votes }

/-- Embedding of `get_battle` (lines 334-350): error (`none`) when fewer
than 2 models exist, otherwise the models at the two positions drawn by
`random.sample(models, 2)` — `i` and `j` stand for the sampled positions,
which the sampler guarantees to be in range and distinct.  The first
component returns the store, which the handler never writes. -/
def get_battle (db : DB) (i j : ℕ) : DB × Option Battle :=
  if db.llm_models.length < 2 then (db, none)
  else
    match db.llm_models[i]?, db.llm_models[j]? with
    | some a, some b => (db, some { model1 := a, model2 := b })
    | _, _ => (db, none)

/-- The sort key `[("wins", -1), ("win_rate", -1)]` of `get_leaderboard`
(line 402) as a relation: `a` may precede `b`. -/
def lbRel (a b : LLMModel) : Prop :=
  b.wins < a.wins ∨ (a.wins = b.wins ∧ b.win_rate ≤ a.win_rate)

instance lbRelDecidable : DecidableRel lbRel := fun a b =>
  inferInstanceAs (Decidable (b.wins < a.wins ∨ (a.wins = b.wins ∧ b.win_rate ≤ a.win_rate)))

/-- Embedding of `get_leaderboard` (lines 398-405): the catalog sorted by
wins descending, then win rate descending. -/
def get_leaderboard (db : DB) : List LLMModel :=
  List.insertionSort lbRel db.llm_models

/-- The sort key `[("wins", -1)]` of the top-model query in
`get_battle_stats` (line 416). -/
def winsRel (a b : LLMModel) : Prop :=
  b.wins ≤ a.wins

instance winsRelDecidable : DecidableRel winsRel := fun a b =>
  inferInstanceAs (Decidable (b.wins ≤ a.wins))

/-- The response body of `get_battle_stats`. -/
structure Stats where
  total_votes : ℕ
  total_models : ℕ
  top_model : Option String
  battles_completed : ℕ
  deriving DecidableEq

/-- Embedding of `get_battle_stats` (lines 408-426): count the ledger,
count the catalog, take the first model of the wins-descending sort
(`limit(1)`) for `top_model`, and report the ledger count again as
`battles_completed`. -/
def get_battle_stats (db : DB) : Stats :=
  { total_votes := db.votes.length,
    total_models := db.llm_models.length,
    top_model := (List.insertionSort winsRel db.llm_models).head?.map LLMModel.name,
    battles_completed := db.votes.length }

/-- Sequential execution of a list of `(winner_id, loser_id)` vote
submissions. -/
def applyVotes (db : DB) (vs : List (String × String)) : DB :=
  vs.foldl (fun d v => (submit_vote d v.1 v.2).1) db

/-- The per-entity counter invariant of the spec:
`total_votes == wins + losses`. -/
def Inv (m : LLMModel) : Prop :=
  m.total_votes = m.wins + m.losses

/-- Derived-field consistency: the stored `win_rate` agrees with
`calculate_win_rate` of the current counters. -/
def WROK (m : LLMModel) : Prop :=
  (m.total_votes = 0 → m.win_rate = 0) ∧
  (0 < m.total_votes →
    m.win_rate = pyRound1 ((m.wins : ℚ) / (m.total_votes : ℚ) * 100))

/-- Pointwise order on the three vote counters of a model. -/
def counterLE (a b : LLMModel) : Prop :=
  a.total_votes ≤ b.total_votes ∧ a.wins ≤ b.wins ∧ a.losses ≤ b.losses

section UpdateFirstLemmas

variable {α : Type} {p q : α → Bool} {f g : α → α} {l : List α} {x m : α}

theorem updateFirst_length (p : α → Bool) (f : α → α) (l : List α) :
    (updateFirst p f l).length = l.length := by
  induction l with
  | nil => rfl
  | cons y ys ih =>
    by_cases h : p y <;> simp [updateFirst, h, ih]

theorem updateFirst_of_find?_none (h : l.find? p = none) :
    updateFirst p f l = l := by
  rw [List.find?_eq_none] at h
  induction l with
  | nil => rfl
  | cons y ys ih =>
    have hy : ¬ p y = true := by
      simpa using h y (List.mem_cons_self y ys)
    simp [updateFirst, hy, ih fun z hz => h z (List.mem_cons_of_mem y hz)]

theorem find?_updateFirst (hf : ∀ x, p (f x) = p x) :
    (updateFirst p f l).find? p = (l.find? p).map f := by
  induction l with
  | nil => rfl
  | cons y ys ih =>
    by_cases hy : p y
    · simp [updateFirst, hy, List.find?_cons, hf]
    · simp [updateFirst, hy, List.find?_cons, ih]

theorem find?_none_updateFirst (h : l.find? p = none) (hf : ∀ x, p (f x) = p x) :
    (updateFirst q f l).find? p = none := by
  rw [List.find?_eq_none] at h ⊢
  intro x hx
  induction l with
  | nil => simp [updateFirst] at hx
  | cons y ys ih =>
    by_cases hy : q y
    · simp [updateFirst, hy] at hx
      rcases hx with hx | hx
      · subst hx
        rw [hf]
        exact h y (List.mem_cons_self y ys)
      · exact h x (List.mem_cons_of_mem y hx)
    · simp [updateFirst, hy] at hx
      rcases hx with hx | hx
      · subst hx
        exact h x (List.mem_cons_self x ys)
      · exact ih (fun z hz => h z (List.mem_cons_of_mem y hz)) hx

theorem updateFirst_updateFirst (hg : ∀ x, p (g x) = p x) :
    updateFirst p f (updateFirst p g l) = updateFirst p (fun x => f (g x)) l := by
  induction l with
  | nil => rfl
  | cons y ys ih =>
    by_cases hy : p y
    · simp [updateFirst, hy, hg]
    · simp [updateFirst, hy, ih]

theorem updateFirst_comm (hdisj : ∀ x, p x = true → q x = false)
    (hfq : ∀ x, q (f x) = q x) (hgp : ∀ x, p (g x) = p x) :
    updateFirst p f (updateFirst q g l) = updateFirst q g (updateFirst p f l) := by
  induction l with
  | nil => rfl
  | cons y ys ih =>
    by_cases hy : p y
    · have hqy : q y = false := hdisj y hy
      simp [updateFirst, hy, hqy, hfq, hgp]
    · by_cases hqy : q y
      · simp [updateFirst, hy, hqy, hgp, hfq]
      · simp [updateFirst, hy, hqy, ih]

theorem mem_updateFirst (hx : x ∈ updateFirst p f l) :
    x ∈ l ∨ ∃ y ∈ l, p y = true ∧ x = f y := by
  induction l with
  | nil => simp [updateFirst] at hx
  | cons y ys ih =>
    by_cases hy : p y
    · simp [updateFirst, hy] at hx
      rcases hx with hx | hx
      · exact Or.inr ⟨y, List.mem_cons_self y ys, hy, hx⟩
      · exact Or.inl (List.mem_cons_of_mem y hx)
    · simp [updateFirst, hy] at hx
      rcases hx with hx | hx
      · exact Or.inl (by simp [hx])
      · rcases ih hx with h | ⟨z, hz, hpz, hxz⟩
        · exact Or.inl (List.mem_cons_of_mem y h)
        · exact Or.inr ⟨z, List.mem_cons_of_mem y hz, hpz, hxz⟩

theorem mem_updateFirst_of_find? (hfind : l.find? p = some m)
    (hx : x ∈ updateFirst p f l) : x ∈ l ∨ x = f m := by
  induction l with
  | nil => simp [updateFirst] at hx
  | cons y ys ih =>
    rw [List.find?_cons] at hfind
    by_cases hy : p y
    · simp [hy] at hfind
      simp [updateFirst, hy] at hx
      rcases hx with hx | hx
      · exact Or.inr (by rw [hx, hfind])
      · exact Or.inl (List.mem_cons_of_mem y hx)
    · simp [hy] at hfind
      simp [updateFirst, hy] at hx
      rcases hx with hx | hx
      · exact Or.inl (by simp [hx])
      · rcases ih hfind hx with h | h
        · exact Or.inl (List.mem_cons_of_mem y h)
        · exact Or.inr h

theorem forall₂_updateFirst {r : α → α → Prop} (hr : ∀ x, r x x)
    (hf : ∀ x, r x (f x)) (l : List α) :
    List.Forall₂ r l (updateFirst p f l) := by
  induction l with
  | nil => exact List.Forall₂.nil
  | cons y ys ih =>
    by_cases hy : p y
    · simp only [updateFirst, hy, if_pos]
      exact List.Forall₂.cons (hf y) (List.forall₂_same.2 fun z _ => hr z)
    · simp only [updateFirst, hy]
      simp only [Bool.false_eq_true, if_false]
      exact List.Forall₂.cons (hr y) ih

end UpdateFirstLemmas

theorem find?_updateFirst_disjoint {α : Type} {p q : α → Bool} {g : α → α}
    {l : List α} (hdisj : ∀ x, q x = true → p x = false)
    (hg : ∀ x, p (g x) = p x) :
    (updateFirst q g l).find? p = l.find? p := by
  induction l with
  | nil => rfl
  | cons y ys ih =>
    by_cases hqy : q y
    · have hpy : p y = false := hdisj y hqy
      have hpgy : p (g y) = false := by rw [hg]; exact hpy
      simp [updateFirst, hqy, List.find?_cons, hpy, hpgy]
    · by_cases hpy : p y
      · simp [updateFirst, hqy, List.find?_cons, hpy]
      · simp [updateFirst, hqy, List.find?_cons, hpy, ih]

theorem incWin_id (x : LLMModel) : (incWin x).id = x.id := rfl

theorem incLoss_id (x : LLMModel) : (incLoss x).id = x.id := rfl

theorem setWinRate_id (r : ℚ) (x : LLMModel) : (setWinRate r x).id = x.id := rfl

theorem byId_incWin (i : String) (x : LLMModel) :
    byId i (incWin x) = byId i x := rfl

theorem byId_incLoss (i : String) (x : LLMModel) :
    byId i (incLoss x) = byId i x := rfl

theorem byId_setWinRate (i : String) (r : ℚ) (x : LLMModel) :
    byId i (setWinRate r x) = byId i x := rfl

theorem byId_disjoint {w l : String} (hwl : w ≠ l) (x : LLMModel) :
    byId w x = true → byId l x = false := by
  intro hx
  simp only [byId, beq_iff_eq] at hx
  simp only [byId, beq_eq_false_iff_ne, ne_eq]
  rw [hx]
  exact hwl

theorem calculate_win_rate_setWinRate (r : ℚ) (m : LLMModel) :
    (setWinRate r m).calculate_win_rate = m.calculate_win_rate := rfl

theorem recalcWinRate_of_find?_none {ms : List LLMModel} {i : String}
    (h : ms.find? (byId i) = none) : recalcWinRate ms i = ms := by
  simp [recalcWinRate, h]

theorem recalcWinRate_of_find?_some {ms : List LLMModel} {i : String}
    {m : LLMModel} (h : ms.find? (byId i) = some m) :
    recalcWinRate ms i =
      updateFirst (byId i) (setWinRate m.calculate_win_rate) ms := by
  simp [recalcWinRate, h]

/-- Unfolding of the store effect of `submit_vote` on the model catalog. -/
theorem submit_vote_models (db : DB) (w l : String) :
    (submit_vote db w l).1.llm_models =
      recalcWinRate
        (recalcWinRate
          (updateFirst (byId l) incLoss (updateFirst (byId w) incWin db.llm_models)) w)
        l := rfl

/-- Unfolding of the ledger effect of `submit_vote`. -/
theorem submit_vote_votes (db : DB) (w l : String) :
    (submit_vote db w l).1.votes =
      db.votes ++ [{ winner_id := w, loser_id := l }] := rfl

/-- `submit_vote` reports success unconditionally. -/
theorem submit_vote_success (db : DB) (w l : String) :
    (submit_vote db w l).2 = true := rfl

theorem WROK_setWinRate_calc (m : LLMModel) :
    WROK (setWinRate m.calculate_win_rate m) := by
  constructor
  · intro h
    have h0 : m.total_votes = 0 := h
    show m.calculate_win_rate = 0
    simp [LLMModel.calculate_win_rate, h0]
  · intro h
    have h0 : 0 < m.total_votes := h
    show m.calculate_win_rate =
      pyRound1 ((m.wins : ℚ) / (m.total_votes : ℚ) * 100)
    simp [LLMModel.calculate_win_rate, Nat.pos_iff_ne_zero.mp h0]

/-- After incrementing the first model matching id `i` with an
id-preserving update and then running the recalculation step for `i`,
every model of the catalog has a consistent stored win rate. -/
theorem WROK_recalc_updateFirst (i : String) (f : LLMModel → LLMModel)
    (hf : ∀ x, (f x).id = x.id) (ms : List LLMModel)
    (hall : ∀ m ∈ ms, WROK m) :
    ∀ m ∈ recalcWinRate (updateFirst (byId i) f ms) i, WROK m := by
  intro m hm
  have hfp : ∀ x, byId i (f x) = byId i x := by
    intro x
    simp [byId, hf]
  cases hfind : ms.find? (byId i) with
  | none =>
    rw [updateFirst_of_find?_none hfind, recalcWinRate_of_find?_none hfind] at hm
    exact hall m hm
  | some m0 =>
    have h1 : (updateFirst (byId i) f ms).find? (byId i) = some (f m0) := by
      rw [find?_updateFirst hfp, hfind]
      rfl
    rw [recalcWinRate_of_find?_some h1] at hm
    rw [updateFirst_updateFirst hfp] at hm
    rcases mem_updateFirst_of_find? hfind hm with h | h
    · exact hall m h
    · rw [h]
      exact WROK_setWinRate_calc (f m0)

theorem recalcWinRate_recalcWinRate (ms : List LLMModel) (i : String) :
    recalcWinRate (recalcWinRate ms i) i = recalcWinRate ms i := by
  cases hfind : ms.find? (byId i) with
  | none =>
    rw [recalcWinRate_of_find?_none hfind, recalcWinRate_of_find?_none hfind]
  | some m =>
    have hset : ∀ r : ℚ, ∀ x, byId i (setWinRate r x) = byId i x := by
      intro r x
      rfl
    have h1 : recalcWinRate ms i =
        updateFirst (byId i) (setWinRate m.calculate_win_rate) ms :=
      recalcWinRate_of_find?_some hfind
    have h2 : (recalcWinRate ms i).find? (byId i) =
        some (setWinRate m.calculate_win_rate m) := by
      rw [h1, find?_updateFirst (hset _), hfind]
      rfl
    rw [recalcWinRate_of_find?_some h2]
    rw [h1, updateFirst_updateFirst (hset _)]
    have hfun : (fun x => setWinRate
        (setWinRate m.calculate_win_rate m).calculate_win_rate
        (setWinRate m.calculate_win_rate x)) =
        setWinRate m.calculate_win_rate := by
      funext x
      rfl
    rw [hfun]

/-- Core preservation lemma for derived-field consistency: if every model
has a consistent stored win rate, the same holds after any
`submit_vote`. -/
theorem WROK_submit_vote (db : DB) (w l : String)
    (hall : ∀ m ∈ db.llm_models, WROK m) :
    ∀ m ∈ (submit_vote db w l).1.llm_models, WROK m := by
  rw [submit_vote_models]
  by_cases hwl : w = l
  · subst hwl
    rw [updateFirst_updateFirst (byId_incWin w)]
    rw [recalcWinRate_recalcWinRate]
    exact WROK_recalc_updateFirst w (fun x => incLoss (incWin x)) (fun x => rfl)
      db.llm_models hall
  · have hd : ∀ x, byId w x = true → byId l x = false := byId_disjoint hwl
    have hd2 : ∀ x, byId l x = true → byId w x = false :=
      byId_disjoint fun h => hwl h.symm
    cases hfw : db.llm_models.find? (byId w) with
    | none =>
      rw [updateFirst_of_find?_none hfw]
      have h1 : (updateFirst (byId l) incLoss db.llm_models).find? (byId w) = none :=
        find?_none_updateFirst hfw (byId_incLoss w)
      rw [recalcWinRate_of_find?_none h1]
      exact WROK_recalc_updateFirst l incLoss incLoss_id db.llm_models hall
    | some m0 =>
      have h1 : (updateFirst (byId w) incWin db.llm_models).find? (byId w) =
          some (incWin m0) := by
        rw [find?_updateFirst (byId_incWin w), hfw]
        rfl
      have h2 : (updateFirst (byId l) incLoss
          (updateFirst (byId w) incWin db.llm_models)).find? (byId w) =
          some (incWin m0) := by
        rw [find?_updateFirst_disjoint hd2 (byId_incLoss w), h1]
      rw [recalcWinRate_of_find?_some h2]
      rw [updateFirst_comm hd (fun x => byId_setWinRate l _ x) (byId_incLoss w)]
      have h3 : updateFirst (byId w) (setWinRate (incWin m0).calculate_win_rate)
          (updateFirst (byId w) incWin db.llm_models) =
          recalcWinRate (updateFirst (byId w) incWin db.llm_models) w :=
        (recalcWinRate_of_find?_some h1).symm
      rw [h3]
      exact WROK_recalc_updateFirst l incLoss incLoss_id _
        (WROK_recalc_updateFirst w incWin incWin_id db.llm_models hall)

theorem Inv_updateFirst {p : LLMModel → Bool} {f : LLMModel → LLMModel}
    {ms : List LLMModel} (hf : ∀ x, Inv x → Inv (f x))
    (hall : ∀ m ∈ ms, Inv m) : ∀ m ∈ updateFirst p f ms, Inv m := by
  intro m hm
  rcases mem_updateFirst hm with h | ⟨y, hy, _, hxy⟩
  · exact hall m h
  · rw [hxy]
    exact hf y (hall y hy)

theorem Inv_incWin (x : LLMModel) (hx : Inv x) : Inv (incWin x) := by
  simp only [Inv, incWin] at hx ⊢
  omega

theorem Inv_incLoss (x : LLMModel) (hx : Inv x) : Inv (incLoss x) := by
  simp only [Inv, incLoss] at hx ⊢
  omega

theorem Inv_recalcWinRate {ms : List LLMModel} {i : String}
    (hall : ∀ m ∈ ms, Inv m) : ∀ m ∈ recalcWinRate ms i, Inv m := by
  cases hfind : ms.find? (byId i) with
  | none =>
    rw [recalcWinRate_of_find?_none hfind]
    exact hall
  | some m0 =>
    rw [recalcWinRate_of_find?_some hfind]
    exact Inv_updateFirst (fun x hx => hx) hall

/-- The counter invariant `total_votes == wins + losses` is preserved by
every `submit_vote`, whatever the ids. -/
theorem Inv_submit_vote (db : DB) (w l : String)
    (hall : ∀ m ∈ db.llm_models, Inv m) :
    ∀ m ∈ (submit_vote db w l).1.llm_models, Inv m := by
  rw [submit_vote_models]
  exact Inv_recalcWinRate (Inv_recalcWinRate
    (Inv_updateFirst Inv_incLoss (Inv_updateFirst Inv_incWin hall)))

theorem Inv_applyVotes (vs : List (String × String)) (db : DB)
    (hall : ∀ m ∈ db.llm_models, Inv m) :
    ∀ m ∈ (applyVotes db vs).llm_models, Inv m := by
  induction vs generalizing db with
  | nil => exact hall
  | cons v vs ih =>
    exact ih (submit_vote db v.1 v.2).1 (Inv_submit_vote db v.1 v.2 hall)

theorem counterLE_refl (m : LLMModel) : counterLE m m :=
  ⟨le_refl _, le_refl _, le_refl _⟩

theorem counterLE_trans {a b c : LLMModel} (h1 : counterLE a b)
    (h2 : counterLE b c) : counterLE a c :=
  ⟨h1.1.trans h2.1, h1.2.1.trans h2.2.1, h1.2.2.trans h2.2.2⟩

theorem counterLE_incWin (x : LLMModel) : counterLE x (incWin x) :=
  ⟨Nat.le_succ _, Nat.le_succ _, le_refl _⟩

theorem counterLE_incLoss (x : LLMModel) : counterLE x (incLoss x) :=
  ⟨Nat.le_succ _, le_refl _, Nat.le_succ _⟩

theorem counterLE_setWinRate (r : ℚ) (x : LLMModel) :
    counterLE x (setWinRate r x) :=
  ⟨le_refl _, le_refl _, le_refl _⟩

theorem forall₂_counterLE_refl (l : List LLMModel) :
    List.Forall₂ counterLE l l := by
  induction l with
  | nil => exact List.Forall₂.nil
  | cons y ys ih => exact List.Forall₂.cons (counterLE_refl y) ih

theorem forall₂_counterLE_trans {l1 l2 l3 : List LLMModel}
    (h1 : List.Forall₂ counterLE l1 l2) (h2 : List.Forall₂ counterLE l2 l3) :
    List.Forall₂ counterLE l1 l3 := by
  induction h1 generalizing l3 with
  | nil =>
    cases h2
    exact List.Forall₂.nil
  | cons h t ih =>
    cases h2 with
    | cons h2h h2t => exact List.Forall₂.cons (counterLE_trans h h2h) (ih h2t)

theorem forall₂_recalcWinRate (ms : List LLMModel) (i : String) :
    List.Forall₂ counterLE ms (recalcWinRate ms i) := by
  cases hfind : ms.find? (byId i) with
  | none =>
    rw [recalcWinRate_of_find?_none hfind]
    exact forall₂_counterLE_refl ms
  | some m0 =>
    rw [recalcWinRate_of_find?_some hfind]
    exact forall₂_updateFirst counterLE_refl (fun x => counterLE_setWinRate _ x) ms

/-- Positionwise, no vote counter of any catalog entry decreases across a
`submit_vote`. -/
theorem forall₂_submit_vote (db : DB) (w l : String) :
    List.Forall₂ counterLE db.llm_models (submit_vote db w l).1.llm_models := by
  rw [submit_vote_models]
  exact forall₂_counterLE_trans
    (forall₂_counterLE_trans
      (forall₂_counterLE_trans
        (forall₂_updateFirst counterLE_refl counterLE_incWin db.llm_models)
        (forall₂_updateFirst counterLE_refl counterLE_incLoss _))
      (forall₂_recalcWinRate _ w))
    (forall₂_recalcWinRate _ l)

theorem applyVotes_append (db : DB) (a b : List (String × String)) :
    applyVotes db (a ++ b) = applyVotes (applyVotes db a) b := by
  simp [applyVotes, List.foldl_append]

theorem take_succ_eq {α : Type} (vs : List α) (k : ℕ) :
    vs.take (k + 1) = vs.take k ++ vs[k]?.toList := by
  induction vs generalizing k with
  | nil => simp
  | cons y ys ih =>
    cases k with
    | zero => simp
    | succ k => simp [List.take_succ_cons, ih]

theorem mem_seed_models {gen : ℕ → String} {db : DB} {m : LLMModel}
    (hm : m ∈ (seed_models gen db).llm_models) :
    m.total_votes = 0 ∧ m.wins = 0 ∧ m.losses = 0 ∧ m.win_rate = 0 := by
  simp only [seed_models, List.mem_map] at hm
  obtain ⟨p, _, rfl⟩ := hm
  exact ⟨rfl, rfl, rfl, rfl⟩

instance : IsTotal LLMModel lbRel :=
  ⟨by
    intro a b
    unfold lbRel
    rcases Nat.lt_trichotomy a.wins b.wins with h | h | h
    · exact Or.inr (Or.inl h)
    · rcases le_total a.win_rate b.win_rate with hr | hr
      · exact Or.inr (Or.inr ⟨h.symm, hr⟩)
      · exact Or.inl (Or.inr ⟨h, hr⟩)
    · exact Or.inl (Or.inl h)⟩

instance : IsTrans LLMModel lbRel :=
  ⟨by
    intro a b c hab hbc
    unfold lbRel at hab hbc ⊢
    rcases hab with h1 | ⟨h1, h1r⟩ <;> rcases hbc with h2 | ⟨h2, h2r⟩
    · exact Or.inl (h2.trans h1)
    · exact Or.inl (by omega)
    · exact Or.inl (by omega)
    · exact Or.inr ⟨h1.trans h2, h2r.trans h1r⟩⟩

instance : IsTotal LLMModel winsRel :=
  ⟨by
    intro a b
    unfold winsRel
    omega⟩

instance : IsTrans LLMModel winsRel :=
  ⟨by
    intro a b c hab hbc
    unfold winsRel at hab hbc ⊢
    omega⟩

/-- A minimal one-entity catalog used as a concrete test fixture. -/
def cxModelA : LLMModel :=
  { id := "a", name := "A", provider := "P", description := "D",
    capabilities := [] }

/-- A second entity for two-entity fixtures. -/
def cxModelB : LLMModel :=
  { id := "b", name := "B", provider := "P", description := "D",
    capabilities := [] }

/-- Store with one entity (id `a`) and an empty ledger. -/
def cxDB : DB :=
  { llm_models := [cxModelA], votes := [] }

/-- Store with two entities (ids `a`, `b`) and an empty ledger. -/
def cxDB2 : DB :=
  { llm_models := [cxModelA, cxModelB], votes := [] }

/-- The empty store. -/
def emptyDB : DB :=
  { llm_models := [], votes := [] }

/-- A concrete vote sequence on `cxDB2`. -/
def cxVotes : List (String × String) :=
  [("a", "b")]

/-- The id supply used in concrete seeding runs. -/
def genX : ℕ → String :=
  fun _ => "x"

/-- The first entity produced by a seeding run with id supply `genX`. -/
def firstSeedModel : LLMModel :=
  mkSeedModel ("x") (seedSpecs.get ⟨0, by decide⟩)

/-- Fixture for the `total_votes == 0` branch of `calculate_win_rate`:
nonzero `wins` with zero `total_votes`. -/
def cxModelZeroTotal : LLMModel :=
  { id := "z", name := "Z", provider := "P", description := "D",
    capabilities := [], wins := 5 }

/-- Fixture for the division branch of `calculate_win_rate`. -/
def cxModelThird : LLMModel :=
  { id := "t", name := "T", provider := "P", description := "D",
    capabilities := [], total_votes := 3, wins := 1, losses := 2 }

/-- The single catalog entry of `cxDB` after a self-vote on id `a`. -/
def cxModelASelfVoted : LLMModel :=
  { id := "a", name := "A", provider := "P", description := "D",
    capabilities := [], total_votes := 2, wins := 1, losses := 1,
    win_rate := 50 }

/-- C1 (counterexample): the claim says a vote with `winner_id == loser_id`
fails with `InvalidVote` before any mutation, appending no `Vote` record
and changing no counter.  On the code, a self-vote on the one-entity store
`cxDB` returns success, appends one ledger record, and moves the entity's
counters to `total_votes = 2`, `wins = 1`, `losses = 1`. -/
theorem self_vote_not_rejected :
    (submit_vote cxDB ("a") ("a")).2 = true ∧
    (submit_vote cxDB ("a") ("a")).1.votes.length = 1 ∧
    (submit_vote cxDB ("a") ("a")).1.llm_models.map LLMModel.total_votes = [2] ∧
    (submit_vote cxDB ("a") ("a")).1.llm_models.map LLMModel.wins = [1] ∧
    (submit_vote cxDB ("a") ("a")).1.llm_models.map LLMModel.losses = [1] := by
  decide

/-- C1 (amended): `submit_vote` performs no `winner_id != loser_id`
validation: a self-vote returns success and appends a `Vote` record to the
ledger like any other vote. -/
theorem self_vote_succeeds_and_appends (db : DB) (a : String) :
    (submit_vote db a a).2 = true ∧
    (submit_vote db a a).1.votes = db.votes ++ [{ winner_id := a, loser_id := a }] :=
  ⟨rfl, rfl⟩

/-- C6: a vote whose winner id or loser id matches no catalog entry still
returns success and still appends a ledger record; the missing id's
increment pass and win-rate pass are no-ops, so the catalog effect is
exactly the other id's update pipeline — and the return value is the same
unconditional success as in the fully-applied case. -/
theorem vote_missing_entity_still_applies (db : DB) (w l : String) :
    (submit_vote db w l).2 = true ∧
    (submit_vote db w l).1.votes = db.votes ++ [{ winner_id := w, loser_id := l }] ∧
    (db.llm_models.find? (byId w) = none →
      (submit_vote db w l).1.llm_models =
        recalcWinRate (updateFirst (byId l) incLoss db.llm_models) l) ∧
    (db.llm_models.find? (byId l) = none →
      (submit_vote db w l).1.llm_models =
        recalcWinRate (updateFirst (byId w) incWin db.llm_models) w) := by
  refine ⟨rfl, rfl, ?_, ?_⟩
  · intro hw
    rw [submit_vote_models, updateFirst_of_find?_none hw]
    have h1 : (updateFirst (byId l) incLoss db.llm_models).find? (byId w) = none :=
      find?_none_updateFirst hw (byId_incLoss w)
    rw [recalcWinRate_of_find?_none h1]
  · intro hl
    rw [submit_vote_models]
    have h1 : (updateFirst (byId w) incWin db.llm_models).find? (byId l) = none :=
      find?_none_updateFirst hl (byId_incWin l)
    rw [updateFirst_of_find?_none h1]
    have h2 : (recalcWinRate (updateFirst (byId w) incWin db.llm_models) w).find?
        (byId l) = none := by
      cases hfw : (updateFirst (byId w) incWin db.llm_models).find? (byId w) with
      | none => rw [recalcWinRate_of_find?_none hfw]; exact h1
      | some m0 =>
        rw [recalcWinRate_of_find?_some hfw]
        exact find?_none_updateFirst h1 (fun x => byId_setWinRate l _ x)
    rw [recalcWinRate_of_find?_none h2]

/-- C6 (witness): on the one-entity store `cxDB` (catalog id `a`), a vote
between the unknown ids `x` and `y` leaves both update pipelines as
no-ops of the respective other side. -/
theorem vote_missing_entity_still_applies_witness :
    (submit_vote cxDB ("x") ("y")).1.llm_models =
      recalcWinRate (updateFirst (byId ("y")) incLoss cxDB.llm_models) ("y") ∧
    (submit_vote cxDB ("x") ("y")).1.llm_models =
      recalcWinRate (updateFirst (byId ("x")) incWin cxDB.llm_models) ("x") :=
  ⟨(vote_missing_entity_still_applies cxDB ("x") ("y")).2.2.1 (by decide),
   (vote_missing_entity_still_applies cxDB ("x") ("y")).2.2.2 (by decide)⟩

/-- C9: `calculate_win_rate` is total and guards the division solely on
`total_votes`: it returns `0` whenever `total_votes = 0` (whatever `wins`
holds), and in the division branch the denominator, reached only when
`total_votes ≠ 0`, is nonzero. -/
theorem calculate_win_rate_total (m : LLMModel) :
    (m.total_votes = 0 → m.calculate_win_rate = 0) ∧
    (m.total_votes ≠ 0 →
      m.calculate_win_rate =
        pyRound1 ((m.wins : ℚ) / (m.total_votes : ℚ) * 100) ∧
      (m.total_votes : ℚ) ≠ 0) := by
  constructor
  · intro h
    simp [LLMModel.calculate_win_rate, h]
  · intro h
    refine ⟨by simp [LLMModel.calculate_win_rate, h], ?_⟩
    exact_mod_cast h

/-- C9 (witness): an entity with `wins = 5` but `total_votes = 0` gets win
rate `0`; an entity with `total_votes = 3` takes the division branch with
nonzero denominator. -/
theorem calculate_win_rate_total_witness :
    cxModelZeroTotal.calculate_win_rate = 0 ∧
    (cxModelThird.calculate_win_rate =
      pyRound1 ((cxModelThird.wins : ℚ) / (cxModelThird.total_votes : ℚ) * 100) ∧
     (cxModelThird.total_votes : ℚ) ≠ 0) :=
  ⟨(calculate_win_rate_total cxModelZeroTotal).1 rfl,
   (calculate_win_rate_total cxModelThird).2 (by decide)⟩

/-- C10: a self-vote whose id matches an existing entity appends one
ledger record and lands both `$inc` updates on that same entity:
`total_votes` rises by 2, `wins` by 1, `losses` by 1, and the invariant
`total_votes == wins + losses` is preserved for it. -/
theorem self_vote_double_increment (db : DB) (a : String) (m : LLMModel)
    (hm : db.llm_models.find? (byId a) = some m) :
    (submit_vote db a a).1.votes.length = db.votes.length + 1 ∧
    ∃ m2, (submit_vote db a a).1.llm_models.find? (byId a) = some m2 ∧
      m2.total_votes = m.total_votes + 2 ∧ m2.wins = m.wins + 1 ∧
      m2.losses = m.losses + 1 ∧
      (m.total_votes = m.wins + m.losses →
        m2.total_votes = m2.wins + m2.losses) := by
  constructor
  · rw [submit_vote_votes]
    simp
  · rw [submit_vote_models]
    have h1 : (updateFirst (byId a) incWin db.llm_models).find? (byId a) =
        some (incWin m) := by
      rw [find?_updateFirst (byId_incWin a), hm]
      rfl
    have h2 : (updateFirst (byId a) incLoss
        (updateFirst (byId a) incWin db.llm_models)).find? (byId a) =
        some (incLoss (incWin m)) := by
      rw [find?_updateFirst (byId_incLoss a), h1]
      rfl
    rw [recalcWinRate_of_find?_some h2]
    have h3 : (updateFirst (byId a)
        (setWinRate (incLoss (incWin m)).calculate_win_rate)
        (updateFirst (byId a) incLoss
          (updateFirst (byId a) incWin db.llm_models))).find? (byId a) =
        some (setWinRate (incLoss (incWin m)).calculate_win_rate
          (incLoss (incWin m))) := by
      rw [find?_updateFirst (fun x => byId_setWinRate a _ x), h2]
      rfl
    rw [recalcWinRate_of_find?_some h3]
    have h4 : (updateFirst (byId a)
        (setWinRate (setWinRate (incLoss (incWin m)).calculate_win_rate
          (incLoss (incWin m))).calculate_win_rate)
        (updateFirst (byId a)
          (setWinRate (incLoss (incWin m)).calculate_win_rate)
          (updateFirst (byId a) incLoss
            (updateFirst (byId a) incWin db.llm_models)))).find? (byId a) =
        some (setWinRate (setWinRate (incLoss (incWin m)).calculate_win_rate
            (incLoss (incWin m))).calculate_win_rate
          (setWinRate (incLoss (incWin m)).calculate_win_rate
            (incLoss (incWin m)))) := by
      rw [find?_updateFirst (fun x => byId_setWinRate a _ x), h3]
      rfl
    refine ⟨_, h4, ?_, ?_, ?_, ?_⟩
    · show m.total_votes + 1 + 1 = m.total_votes + 2
      omega
    · rfl
    · rfl
    · intro h
      show m.total_votes + 1 + 1 = (m.wins + 1) + (m.losses + 1)
      omega

/-- C10 (witness): the self-vote on `cxDB`'s entity `a`. -/
theorem self_vote_double_increment_witness :
    (submit_vote cxDB ("a") ("a")).1.votes.length = cxDB.votes.length + 1 ∧
    ∃ m2, (submit_vote cxDB ("a") ("a")).1.llm_models.find? (byId ("a")) = some m2 ∧
      m2.total_votes = cxModelA.total_votes + 2 ∧ m2.wins = cxModelA.wins + 1 ∧
      m2.losses = cxModelA.losses + 1 ∧
      (cxModelA.total_votes = cxModelA.wins + cxModelA.losses →
        m2.total_votes = m2.wins + m2.losses) :=
  self_vote_double_increment cxDB ("a") cxModelA (by decide)

instance (m : LLMModel) : Decidable (WROK m) :=
  inferInstanceAs (Decidable ((m.total_votes = 0 → m.win_rate = 0) ∧
    (0 < m.total_votes →
      m.win_rate = pyRound1 ((m.wins : ℚ) / (m.total_votes : ℚ) * 100))))

instance (m : LLMModel) : Decidable (Inv m) :=
  inferInstanceAs (Decidable (m.total_votes = m.wins + m.losses))

/-- C2: derived-field consistency of `win_rate`.  Seeding establishes it
(every seeded entity carries `win_rate = 0` with `total_votes = 0`), and
`submit_vote` preserves it: after the update completes, every entity's
stored `win_rate` equals `round(wins / total_votes * 100, 1)` whenever
`total_votes > 0` and `0` when `total_votes = 0`. -/
theorem win_rate_consistent_after_update :
    (∀ gen : ℕ → String, ∀ db : DB, ∀ m ∈ (seed_models gen db).llm_models,
      (m.total_votes = 0 → m.win_rate = 0) ∧
      (0 < m.total_votes →
        m.win_rate = pyRound1 ((m.wins : ℚ) / (m.total_votes : ℚ) * 100))) ∧
    (∀ db : DB, ∀ w l : String, (∀ m ∈ db.llm_models, WROK m) →
      ∀ m ∈ (submit_vote db w l).1.llm_models,
        (m.total_votes = 0 → m.win_rate = 0) ∧
        (0 < m.total_votes →
          m.win_rate = pyRound1 ((m.wins : ℚ) / (m.total_votes : ℚ) * 100))) := by
  constructor
  · intro gen db m hm
    obtain ⟨h1, _, _, h4⟩ := mem_seed_models hm
    constructor
    · intro _
      exact h4
    · intro hc
      rw [h1] at hc
      exact absurd hc (lt_irrefl 0)
  · intro db w l hall m hm
    exact WROK_submit_vote db w l hall m hm

/-- C2 (witness): the store `cxDB` satisfies the consistency hypothesis,
and after a vote its (unchanged) entity still satisfies the property. -/
theorem win_rate_consistent_after_update_witness :
    (cxModelA.total_votes = 0 → cxModelA.win_rate = 0) ∧
    (0 < cxModelA.total_votes →
      cxModelA.win_rate =
        pyRound1 ((cxModelA.wins : ℚ) / (cxModelA.total_votes : ℚ) * 100)) :=
  win_rate_consistent_after_update.2 cxDB ("q") ("r") (by decide) cxModelA (by decide)

/-- C3: along any sequentially executed vote sequence over existing,
distinct entities, after each vote every entity satisfies
`total_votes == wins + losses` with all counters non-negative, and no
counter of any entity decreases from one vote to the next. -/
theorem vote_sequence_invariants (db : DB) (vs : List (String × String))
    (hinv : ∀ m ∈ db.llm_models, Inv m)
    (href : ∀ v ∈ vs, v.1 ≠ v.2 ∧ (∃ m ∈ db.llm_models, m.id = v.1) ∧
      (∃ m ∈ db.llm_models, m.id = v.2)) :
    ∀ k : ℕ,
      (∀ m ∈ (applyVotes db (vs.take k)).llm_models,
        m.total_votes = m.wins + m.losses ∧
        0 ≤ m.total_votes ∧ 0 ≤ m.wins ∧ 0 ≤ m.losses) ∧
      List.Forall₂ counterLE (applyVotes db (vs.take k)).llm_models
        (applyVotes db (vs.take (k + 1))).llm_models := by
  intro k
  constructor
  · intro m hm
    exact ⟨Inv_applyVotes (vs.take k) db hinv m hm,
      Nat.zero_le _, Nat.zero_le _, Nat.zero_le _⟩
  · rw [take_succ_eq, applyVotes_append]
    cases h : vs[k]? with
    | none => exact forall₂_counterLE_refl _
    | some v => exact forall₂_submit_vote _ v.1 v.2

/-- C3 (witness): one vote of `a` over `b` on the two-entity store. -/
theorem vote_sequence_invariants_witness :
    List.Forall₂ counterLE (applyVotes cxDB2 (cxVotes.take 0)).llm_models
      (applyVotes cxDB2 (cxVotes.take (0 + 1))).llm_models :=
  (vote_sequence_invariants cxDB2 cxVotes (by decide) (by decide) 0).2

/-- C4: seeding replaces the whole catalog (the result is independent of
the previous catalog) with entities whose counters and win rate are all
zero, leaves the vote ledger untouched, and `stats().total_votes` after a
reseed still reports the pre-reseed ledger count. -/
theorem seed_replaces_catalog_keeps_ledger (gen : ℕ → String) (db : DB) :
    (seed_models gen db).votes = db.votes ∧
    (seed_models gen db).llm_models = (seed_models gen emptyDB).llm_models ∧
    (∀ m ∈ (seed_models gen db).llm_models,
      m.total_votes = 0 ∧ m.wins = 0 ∧ m.losses = 0 ∧ m.win_rate = 0) ∧
    (get_battle_stats (seed_models gen db)).total_votes = db.votes.length :=
  ⟨rfl, rfl, fun _ hm => mem_seed_models hm, rfl⟩

/-- C4 (witness): the first entity of a concrete seeding run is zeroed. -/
theorem seed_replaces_catalog_keeps_ledger_witness :
    firstSeedModel.total_votes = 0 ∧ firstSeedModel.wins = 0 ∧
    firstSeedModel.losses = 0 ∧ firstSeedModel.win_rate = 0 :=
  (seed_replaces_catalog_keeps_ledger genX cxDB).2.2.1 firstSeedModel (by decide)

/-- C5: `get_battle` never writes the store; with fewer than 2 entities it
fails; with valid distinct sampled positions over a catalog of pairwise
distinct ids it returns the two sampled entities, whose ids differ. -/
theorem battle_pair_distinct (db : DB) :
    (∀ i j : ℕ, (get_battle db i j).1 = db) ∧
    (db.llm_models.length < 2 → ∀ i j : ℕ, (get_battle db i j).2 = none) ∧
    (∀ i j : ℕ, ∀ hi : i < db.llm_models.length,
      ∀ hj : j < db.llm_models.length,
      i ≠ j → (db.llm_models.map LLMModel.id).Nodup →
      (get_battle db i j).2 =
        some { model1 := db.llm_models.get ⟨i, hi⟩,
               model2 := db.llm_models.get ⟨j, hj⟩ } ∧
      (db.llm_models.get ⟨i, hi⟩).id ≠ (db.llm_models.get ⟨j, hj⟩).id) := by
  refine ⟨?_, ?_, ?_⟩
  · intro i j
    by_cases h : db.llm_models.length < 2
    · simp [get_battle, h]
    · simp only [get_battle, if_neg h]
      cases hx : db.llm_models[i]? <;> cases hy : db.llm_models[j]? <;> rfl
  · intro h i j
    simp [get_battle, h]
  · intro i j hi hj hij hnd
    have hge : ¬ db.llm_models.length < 2 := by omega
    have h1 : db.llm_models[i]? = some (db.llm_models.get ⟨i, hi⟩) := by
      rw [List.getElem?_eq_getElem hi, List.get_eq_getElem]
    have h2 : db.llm_models[j]? = some (db.llm_models.get ⟨j, hj⟩) := by
      rw [List.getElem?_eq_getElem hj, List.get_eq_getElem]
    constructor
    · simp only [get_battle, if_neg hge, h1, h2]
    · intro heq
      apply hij
      have hi2 : i < (db.llm_models.map LLMModel.id).length := by
        simpa using hi
      have hj2 : j < (db.llm_models.map LLMModel.id).length := by
        simpa using hj
      have h3 : (db.llm_models.map LLMModel.id)[i] =
          (db.llm_models.map LLMModel.id)[j] := by
        rw [List.getElem_map, List.getElem_map]
        simpa [List.get_eq_getElem] using heq
      exact (List.Nodup.getElem_inj_iff hnd).1 h3

/-- C5 (witness): the empty store fails, and positions 0 and 1 of the
two-entity store give a battle with distinct ids. -/
theorem battle_pair_distinct_witness :
    (get_battle emptyDB 0 1).2 = none ∧
    ((get_battle cxDB2 0 1).2 =
      some { model1 := cxDB2.llm_models.get ⟨0, by decide⟩,
             model2 := cxDB2.llm_models.get ⟨1, by decide⟩ } ∧
     (cxDB2.llm_models.get ⟨0, by decide⟩).id ≠
       (cxDB2.llm_models.get ⟨1, by decide⟩).id) :=
  ⟨(battle_pair_distinct emptyDB).2.1 (by decide) 0 1,
   (battle_pair_distinct cxDB2).2.2 0 1 (by decide) (by decide) (by decide)
     (by decide)⟩

/-- C7: the leaderboard is a permutation of the catalog, ordered with
primary key `wins` descending and secondary key `win_rate` descending. -/
theorem leaderboard_sorted (db : DB) :
    (get_leaderboard db).Perm db.llm_models ∧
    List.Pairwise
      (fun a b => b.wins < a.wins ∨ (a.wins = b.wins ∧ b.win_rate ≤ a.win_rate))
      (get_leaderboard db) :=
  ⟨List.perm_insertionSort lbRel db.llm_models,
   List.sorted_insertionSort lbRel db.llm_models⟩

/-- C8: `stats()` reports `total_votes` and `battles_completed` as the
same ledger count, and `top_model` as the name of an entity with maximal
`wins`, absent exactly when the catalog is empty. -/
theorem stats_report (db : DB) :
    (get_battle_stats db).total_votes = db.votes.length ∧
    (get_battle_stats db).battles_completed = db.votes.length ∧
    (get_battle_stats db).total_models = db.llm_models.length ∧
    (db.llm_models = [] → (get_battle_stats db).top_model = none) ∧
    (db.llm_models ≠ [] → ∃ m ∈ db.llm_models,
      (get_battle_stats db).top_model = some m.name ∧
      ∀ m2 ∈ db.llm_models, m2.wins ≤ m.wins) := by
  refine ⟨rfl, rfl, rfl, ?_, ?_⟩
  · intro h
    simp [get_battle_stats, h, List.insertionSort]
  · intro h
    cases hseq : List.insertionSort winsRel db.llm_models with
    | nil =>
      exfalso
      have hperm := List.perm_insertionSort winsRel db.llm_models
      rw [hseq] at hperm
      exact h hperm.symm.eq_nil
    | cons m t =>
      have hperm := List.perm_insertionSort winsRel db.llm_models
      rw [hseq] at hperm
      have hsort := List.sorted_insertionSort winsRel db.llm_models
      rw [hseq] at hsort
      refine ⟨m, hperm.mem_iff.1 (List.mem_cons_self m t), ?_, ?_⟩
      · show (List.insertionSort winsRel db.llm_models).head?.map LLMModel.name =
          some m.name
        rw [hseq]
        rfl
      · intro m2 hm2
        have hm2s : m2 ∈ m :: t := hperm.mem_iff.2 hm2
        rcases List.mem_cons.1 hm2s with rfl | hm2t
        · exact le_refl _
        · exact List.rel_of_sorted_cons hsort m2 hm2t

/-- C8 (witness): the empty store reports no top model; the one-entity
store reports its only entity. -/
theorem stats_report_witness :
    (get_battle_stats emptyDB).top_model = none ∧
    ∃ m ∈ cxDB.llm_models, (get_battle_stats cxDB).top_model = some m.name ∧
      ∀ m2 ∈ cxDB.llm_models, m2.wins ≤ m.wins :=
  ⟨(stats_report emptyDB).2.2.2.1 rfl,
   (stats_report cxDB).2.2.2.2 (by decide)⟩

end LLMBattle
